import Mathlib

/-!
Verification development for the account/trading REST client module
(`src/account.rs` of the `binance-rs-async` repository).

The embedding models:
* the canonical parameter map (the Rust code stores parameters in a
  `BTreeMap<String, String>`, i.e. a key-sorted map with last-write-wins
  insertion) as a strictly key-sorted association list;
* the request signer (HMAC-SHA256 over the canonical query string, hex
  encoded, appended as a final `signature` parameter);
* the order validator and every façade operation of `impl Account`,
  with the HTTP collaborator passed in explicitly as a function and the
  wall-clock timestamp injected as an argument, so that each operation
  returns the list of HTTP calls it performed together with its result.
-/

/-! ## Canonical parameter maps (model of `BTreeMap<String, String>`) -/

/-- A parameter list: ordered sequence of (key, value) string pairs. -/
abbrev Params := List (String × String)

/-- Lexicographic comparison of character lists by code point. -/
def charListLt : List Char → List Char → Bool
  | [], [] => false
  | [], _ :: _ => true
  | _ :: _, [] => false
  | a :: as, b :: bs =>
      if a.toNat < b.toNat then true
      else if b.toNat < a.toNat then false
      else charListLt as bs

/-- Lexicographic order on strings by code point; this agrees with the
UTF-8 byte order that `BTreeMap<String, _>` sorts keys by. -/
def strLt (a b : String) : Bool := charListLt a.data b.data

/-- Sorted insertion into a key-sorted association list; overwrites an
existing binding for the same key (the semantics of `BTreeMap::insert`). -/
def insertParam (k v : String) : Params → Params
  | [] => [(k, v)]
  | (k', v') :: rest =>
      if strLt k k' = true then (k, v) :: (k', v') :: rest
      else if k = k' then (k, v) :: rest
      else (k', v') :: insertParam k v rest

/-- Builds the canonical map from a sequence of writes, in order
(later writes to the same key overwrite earlier ones). -/
def toParams (writes : List (String × String)) : Params :=
  writes.foldl (fun m kv => insertParam kv.1 kv.2 m) []

/-- Last write recorded for a key in a write sequence (the value of the
latest pair carrying that key, if any). -/
def lastWrite (writes : List (String × String)) (k : String) : Option String :=
  match writes with
  | [] => none
  | (k', v) :: rest =>
      match lastWrite rest k with
      | some v' => some v'
      | none => if k' = k then some v else none

/-- Query-string rendering of a parameter list: `k1=v1&k2=v2&...`
(the empty parameter set renders as the empty string). -/
def queryString (ps : Params) : String :=
  String.intercalate "&" (ps.map (fun kv => kv.1 ++ "=" ++ kv.2))

/-! ## SHA-256 and HMAC-SHA256

Modelled from the spec: the Request Signer (`client.rs`, not part of the
sources provided) computes a keyed hash-based message authentication code
(HMAC with a 256-bit cryptographic hash) over the canonical query string
and hex-encodes the digest.  This is a direct functional implementation of
FIPS 180-4 SHA-256 and RFC 2104 HMAC over byte lists. -/

/-- UTF-8 encoding of a single code point. -/
def utf8Bytes (c : Nat) : List Nat :=
  if c < 128 then [c]
  else if c < 2048 then [192 + c / 64, 128 + c % 64]
  else if c < 65536 then [224 + c / 4096, 128 + c / 64 % 64, 128 + c % 64]
  else [240 + c / 262144, 128 + c / 4096 % 64, 128 + c / 64 % 64, 128 + c % 64]

/-- Byte sequence of a string (UTF-8), as used by `as_bytes` on the Rust side. -/
def strBytes (s : String) : List Nat :=
  s.data.flatMap (fun c => utf8Bytes c.toNat)

/-- Addition modulo 2^32. -/
def add32 (a b : Nat) : Nat := (a + b) % 4294967296

/-- Right rotation of a 32-bit word. -/
def rotr32 (n x : Nat) : Nat := ((x >>> n) ||| (x <<< (32 - n))) % 4294967296

def sigmaS0 (x : Nat) : Nat := rotr32 7 x ^^^ rotr32 18 x ^^^ (x >>> 3)

def sigmaS1 (x : Nat) : Nat := rotr32 17 x ^^^ rotr32 19 x ^^^ (x >>> 10)

def sigmaB0 (x : Nat) : Nat := rotr32 2 x ^^^ rotr32 13 x ^^^ rotr32 22 x

def sigmaB1 (x : Nat) : Nat := rotr32 6 x ^^^ rotr32 11 x ^^^ rotr32 25 x

/-- The 64 SHA-256 round constants (FIPS 180-4, written in decimal). -/
def sha256K : List Nat :=
  [1116352408, 1899447441, 3049323471, 3921009573, 961987163,
   1508970993, 2453635748, 2870763221, 3624381080, 310598401,
   607225278, 1426881987, 1925078388, 2162078206, 2614888103,
   3248222580, 3835390401, 4022224774, 264347078, 604807628,
   770255983, 1249150122, 1555081692, 1996064986, 2554220882,
   2821834349, 2952996808, 3210313671, 3336571891, 3584528711,
   113926993, 338241895, 666307205, 773529912, 1294757372,
   1396182291, 1695183700, 1986661051, 2177026350, 2456956037,
   2730485921, 2820302411, 3259730800, 3345764771, 3516065817,
   3600352804, 4094571909, 275423344, 430227734, 506948616,
   659060556, 883997877, 958139571, 1322822218, 1537002063,
   1747873779, 1955562222, 2024104815, 2227730452, 2361852424,
   2428436474, 2756734187, 3204031479, 3329325298]

/-- Working state of the SHA-256 compression function. -/
structure Sha256State where
  a : Nat
  b : Nat
  c : Nat
  d : Nat
  e : Nat
  f : Nat
  g : Nat
  h : Nat

/-- Initial SHA-256 hash value (FIPS 180-4, written in decimal). -/
def sha256Init : Sha256State :=
  ⟨1779033703, 3144134277, 1013904242, 2773480762,
   1359893119, 2600822924, 528734635, 1541459225⟩

/-- Groups a byte list into big-endian 32-bit words. -/
def bytesToWords : List Nat → List Nat
  | b0 :: b1 :: b2 :: b3 :: rest =>
      (b0 * 16777216 + b1 * 65536 + b2 * 256 + b3) :: bytesToWords rest
  | _ => []

/-- Message schedule: extends 16 words to 64. -/
def msgSchedule (w16 : List Nat) : Array Nat :=
  (List.range 48).foldl
    (fun w i =>
      w.push (add32 (add32 (sigmaS1 (w.getD (i + 14) 0)) (w.getD (i + 9) 0))
                    (add32 (sigmaS0 (w.getD (i + 1) 0)) (w.getD i 0))))
    w16.toArray

/-- One round of the SHA-256 compression function. -/
def sha256Round (s : Sha256State) (k w : Nat) : Sha256State :=
  let ch := (s.e &&& s.f) ^^^ ((4294967295 ^^^ s.e) &&& s.g)
  let t1 := add32 s.h (add32 (sigmaB1 s.e) (add32 ch (add32 k w)))
  let maj := (s.a &&& s.b) ^^^ (s.a &&& s.c) ^^^ (s.b &&& s.c)
  let t2 := add32 (sigmaB0 s.a) maj
  ⟨add32 t1 t2, s.a, s.b, s.c, add32 s.d t1, s.e, s.f, s.g⟩

/-- Processes one 64-byte block. -/
def compressBlock (s0 : Sha256State) (block : List Nat) : Sha256State :=
  let ws := msgSchedule (bytesToWords block)
  let s := (List.range 64).foldl (fun st t => sha256Round st (sha256K.getD t 0) (ws.getD t 0)) s0
  ⟨add32 s0.a s.a, add32 s0.b s.b, add32 s0.c s.c, add32 s0.d s.d,
   add32 s0.e s.e, add32 s0.f s.f, add32 s0.g s.g, add32 s0.h s.h⟩

/-- Folds the compression function over consecutive 64-byte blocks.
The first argument is recursion fuel, always instantiated with the length
of the (padded) message, which bounds the number of blocks. -/
def sha256Blocks : Nat → Sha256State → List Nat → Sha256State
  | 0, s, _ => s
  | _, s, [] => s
  | fuel + 1, s, l => sha256Blocks fuel (compressBlock s (l.take 64)) (l.drop 64)

/-- Big-endian bytes of a 32-bit word. -/
def wordBytes (w : Nat) : List Nat :=
  [w >>> 24 &&& 255, w >>> 16 &&& 255, w >>> 8 &&& 255, w &&& 255]

/-- SHA-256 padding: `0x80`, zeros to 56 mod 64, 8-byte big-endian bit length. -/
def sha256Pad (msg : List Nat) : List Nat :=
  let len := msg.length
  let zeros := (64 - (len + 9) % 64) % 64
  msg ++ 128 :: List.replicate zeros 0
      ++ (List.range 8).map (fun i => (len * 8) >>> (56 - 8 * i) &&& 255)

/-- SHA-256 of a byte list, as a list of 32 bytes. -/
def sha256 (msg : List Nat) : List Nat :=
  let padded := sha256Pad msg
  let s := sha256Blocks padded.length sha256Init padded
  wordBytes s.a ++ wordBytes s.b ++ wordBytes s.c ++ wordBytes s.d
    ++ wordBytes s.e ++ wordBytes s.f ++ wordBytes s.g ++ wordBytes s.h

/-- HMAC-SHA256 (RFC 2104) of a message under a key, as a list of 32 bytes. -/
def hmacSha256 (key msg : List Nat) : List Nat :=
  let k0 := if 64 < key.length then sha256 key else key
  let k := k0 ++ List.replicate (64 - k0.length) 0
  let inner := sha256 (k.map (fun b => b ^^^ 0x36) ++ msg)
  sha256 (k.map (fun b => b ^^^ 0x5c) ++ inner)

/-- Lowercase hex digit. -/
def hexDigit (n : Nat) : Char :=
  if n < 10 then Char.ofNat (48 + n) else Char.ofNat (87 + n)

/-- Lowercase hex encoding of a byte list. -/
def hexOfBytes (bs : List Nat) : String :=
  ⟨bs.flatMap (fun b => [hexDigit (b / 16), hexDigit (b % 16)])⟩

/-- Hex HMAC-SHA256 digest of a message string under a secret string,
as produced by the signer. -/
def hmacSha256Hex (secret msg : String) : String :=
  hexOfBytes (hmacSha256 (strBytes secret) (strBytes msg))

/-! ## Wire model types

Modelled from the spec: `rest_model.rs` and `errors.rs` are not part of the
provided sources; the enums carry their exchange-defined wire names
(spec section 9: explicit per-variant lookup table), the response shapes are
opaque to the core beyond structural decoding (spec section 3), except
`Balance`, whose `asset` field `get_balance` inspects. -/

inductive OrderSide
  | Buy
  | Sell
deriving DecidableEq

def OrderSide.wire : OrderSide → String
  | .Buy => "BUY"
  | .Sell => "SELL"

inductive OrderType
  | Limit
  | Market
  | StopLoss
  | StopLossLimit
  | TakeProfit
  | TakeProfitLimit
  | LimitMaker
deriving DecidableEq

def OrderType.wire : OrderType → String
  | .Limit => "LIMIT"
  | .Market => "MARKET"
  | .StopLoss => "STOP_LOSS"
  | .StopLossLimit => "STOP_LOSS_LIMIT"
  | .TakeProfit => "TAKE_PROFIT"
  | .TakeProfitLimit => "TAKE_PROFIT_LIMIT"
  | .LimitMaker => "LIMIT_MAKER"

inductive TimeInForce
  | GTC
  | IOC
  | FOK
deriving DecidableEq

def TimeInForce.wire : TimeInForce → String
  | .GTC => "GTC"
  | .IOC => "IOC"
  | .FOK => "FOK"

inductive OrderResponse
  | Ack
  | Result
  | Full
deriving DecidableEq

def OrderResponse.wire : OrderResponse → String
  | .Ack => "ACK"
  | .Result => "RESULT"
  | .Full => "FULL"

/-- Modelled from the spec: a single asset balance inside the account
response; `get_balance` inspects the `asset` field. -/
structure Balance where
  asset : String
  free : String
  locked : String
deriving DecidableEq

/-- Modelled from the spec: the account-information response; the core only
interprets its `balances` list. -/
structure AccountInformation where
  balances : List Balance
deriving DecidableEq

/-- Modelled from the spec: opaque response shape, not interpreted by the core. -/
structure Order where
  raw : String
deriving DecidableEq

/-- Modelled from the spec: opaque response shape, not interpreted by the core. -/
structure Transaction where
  raw : String
deriving DecidableEq

/-- Modelled from the spec: opaque response shape, not interpreted by the core. -/
structure TestResponse where
  raw : String
deriving DecidableEq

/-- Modelled from the spec: opaque response shape, not interpreted by the core. -/
structure OrderCanceled where
  raw : String
deriving DecidableEq

/-- Modelled from the spec: opaque response shape, not interpreted by the core. -/
structure TradeHistory where
  raw : String
deriving DecidableEq

/-- Modelled from the spec: opaque response shape, not interpreted by the core. -/
structure SubAccountCreationResp where
  raw : String
deriving DecidableEq

/-- Modelled from the spec: error kinds of section 7.  `InvalidOrderError`
and `Msg` are the variants `account.rs` constructs directly; the others are
the configuration, transport, exchange-API and decode errors. -/
inductive Error
  | InvalidOrderError (msg : String)
  | Msg (s : String)
  | Config (s : String)
  | Transport (s : String)
  | ApiError (code : Int) (m : String)
  | Decode (s : String)
deriving DecidableEq

/-- Modelled from the spec: the HTTP collaborator may fail with a transport
error or an exchange-reported API error (spec section 6). -/
inductive HttpError
  | transport (m : String)
  | api (code : Int) (m : String)
deriving DecidableEq

def HttpError.toError : HttpError → Error
  | .transport m => .Transport m
  | .api c m => .ApiError c m

/-! ## Request structs (`src/account.rs`) -/

/-- Order request (`OrderRequest` in `src/account.rs`).  Decimal (`f64`)
fields are represented by their canonical wire string; the embedding does
not model floating-point formatting.  Wire keys follow the struct's serde
attributes (`rename_all = "camelCase"`, `order_type` renamed to `type`). -/
structure OrderRequest where
  symbol : String
  side : OrderSide
  order_type : OrderType
  time_in_force : Option TimeInForce
  quantity : Option String
  quote_order_qty : Option String
  price : Option String
  new_client_order_id : Option String
  stop_price : Option String
  iceberg_qty : Option String
  new_order_resp_type : Option OrderResponse
  recv_window : Option Nat
deriving DecidableEq

/-- Order cancellation request (`OrderCancellation` in `src/account.rs`). -/
structure OrderCancellation where
  symbol : String
  order_id : Option Nat
  orig_client_order_id : Option String
  new_client_order_id : Option String
  recv_window : Option Nat
deriving DecidableEq

/-- Order status request (`OrderStatusRequest` in `src/account.rs`). -/
structure OrderStatusRequest where
  symbol : String
  order_id : Option Nat
  orig_client_order_id : Option String
  recv_window : Option Nat
deriving DecidableEq

/-- Query on all orders (`OrdersQuery` in `src/account.rs`). -/
structure OrdersQuery where
  symbol : String
  order_id : Option Nat
  start_time : Option Nat
  end_time : Option Nat
  limit : Option Nat
  recv_window : Option Nat
deriving DecidableEq

/-- Modelled from the spec: the virtual sub-account creation payload
(`SubAccountCreationReq` in `rest_model.rs`), a single string field. -/
structure SubAccountCreationReq where
  sub_account_string : String
deriving DecidableEq

/-- The order validator (`OrderRequest::valid` in `src/account.rs`):
iceberg orders require GTC time-in-force. -/
def OrderRequest.valid (o : OrderRequest) : Except Error Unit :=
  if o.iceberg_qty.isSome ∧ o.time_in_force ≠ some TimeInForce.GTC then
    .error (.InvalidOrderError "Time in force has to be GTC for iceberg orders")
  else .ok ()

/-! ## Canonical encoding of request structs

Modelled from the spec: `build_signed_request_p` (in `util.rs`, not part of
the provided sources) serializes the payload struct into key/value string
pairs — optional fields absent when `None`, enums by wire name, keys per
the serde renames visible in `src/account.rs` — and canonicalizes them in
the sorted parameter map. -/

/-- Encodes an optional field: absent fields produce no pair. -/
def encOpt (k : String) : Option String → List (String × String)
  | some v => [(k, v)]
  | none => []

def OrderRequest.writes (o : OrderRequest) : List (String × String) :=
  [("symbol", o.symbol), ("side", o.side.wire), ("type", o.order_type.wire)]
    ++ encOpt "timeInForce" (o.time_in_force.map TimeInForce.wire)
    ++ encOpt "quantity" o.quantity
    ++ encOpt "quoteOrderQty" o.quote_order_qty
    ++ encOpt "price" o.price
    ++ encOpt "newClientOrderId" o.new_client_order_id
    ++ encOpt "stopPrice" o.stop_price
    ++ encOpt "icebergQty" o.iceberg_qty
    ++ encOpt "newOrderRespType" (o.new_order_resp_type.map OrderResponse.wire)
    ++ encOpt "recvWindow" (o.recv_window.map toString)

def OrderRequest.encode (o : OrderRequest) : Params := toParams o.writes

def OrderCancellation.writes (o : OrderCancellation) : List (String × String) :=
  [("symbol", o.symbol)]
    ++ encOpt "orderId" (o.order_id.map toString)
    ++ encOpt "origClientOrderId" o.orig_client_order_id
    ++ encOpt "newClientOrderId" o.new_client_order_id
    ++ encOpt "recvWindow" (o.recv_window.map toString)

def OrderCancellation.encode (o : OrderCancellation) : Params := toParams o.writes

def OrderStatusRequest.writes (o : OrderStatusRequest) : List (String × String) :=
  [("symbol", o.symbol)]
    ++ encOpt "orderId" (o.order_id.map toString)
    ++ encOpt "origClientOrderId" o.orig_client_order_id
    ++ encOpt "recvWindow" (o.recv_window.map toString)

def OrderStatusRequest.encode (o : OrderStatusRequest) : Params := toParams o.writes

def OrdersQuery.writes (q : OrdersQuery) : List (String × String) :=
  [("symbol", q.symbol)]
    ++ encOpt "orderId" (q.order_id.map toString)
    ++ encOpt "startTime" (q.start_time.map toString)
    ++ encOpt "endTime" (q.end_time.map toString)
    ++ encOpt "limit" (q.limit.map toString)
    ++ encOpt "recvWindow" (q.recv_window.map toString)

def OrdersQuery.encode (q : OrdersQuery) : Params := toParams q.writes

def SubAccountCreationReq.encode (r : SubAccountCreationReq) : Params :=
  toParams [("subAccountString", r.sub_account_string)]

/-! ## The request signer

Modelled from the spec (section 4.2): appends `timestamp` (injected caller
wall-clock, epoch milliseconds) and `recvWindow` (effective window) to the
parameter set, computes HMAC-SHA256 over the canonical query string with
the secret as key, and appends the hex digest as a final `signature`
parameter.  An absent/empty secret is a configuration error. -/

/-- The parameter map just before signing: `recvWindow` and `timestamp`
inserted into the canonical map. -/
def presignParams (ps : Params) (recvWindow timestamp : Nat) : Params :=
  insertParam "timestamp" (toString timestamp) (insertParam "recvWindow" (toString recvWindow) ps)

/-- The canonical string that gets signed. -/
def canonicalToSign (ps : Params) (recvWindow timestamp : Nat) : String :=
  queryString (presignParams ps recvWindow timestamp)

/-- The full signed parameter sequence: presign parameters followed by the
`signature` parameter (always last). -/
def buildSignedParams (secret : String) (ps : Params) (recvWindow timestamp : Nat) :
    Except Error Params :=
  if secret = "" then .error (.Config "Missing secret key")
  else
    let pre := presignParams ps recvWindow timestamp
    .ok (pre ++ [("signature", hmacSha256Hex secret (queryString pre))])

/-- The signed query string transmitted on the wire. -/
def signedQueryString (secret : String) (ps : Params) (recvWindow timestamp : Nat) :
    Except Error String :=
  (buildSignedParams secret ps recvWindow timestamp).map queryString

/-! ## The HTTP collaborator and the Account façade -/

/-- Endpoint path constants of `src/account.rs`. -/
def API_V3_ACCOUNT : String := "/api/v3/account"

def API_V3_OPEN_ORDERS : String := "/api/v3/openOrders"

def API_V3_ALL_ORDERS : String := "/api/v3/allOrders"

def API_V3_MYTRADES : String := "/api/v3/myTrades"

def API_V3_ORDER : String := "/api/v3/order"

def API_VIRTUAL_SUB_ACCOUNT : String := "/sapi/v1/sub-account/virtualSubAccount"

/-- Endpoint for test orders: validated, but not sent to the matching engine. -/
def API_V3_ORDER_TEST : String := "/api/v3/order/test"

/-- HTTP verb of a signed call (`get_signed` / `post_signed` / `delete_signed`). -/
inductive Verb
  | get
  | post
  | delete
deriving DecidableEq

/-- One call issued to the HTTP collaborator: verb, endpoint path, and the
signed parameter sequence (whose query-string rendering is the wire form). -/
structure HttpCall where
  verb : Verb
  path : String
  params : Params
deriving DecidableEq

/-- Modelled from the spec: the typed payloads the exchange may return;
the façade decodes the raw JSON body into exactly one of these shapes. -/
inductive RespData
  | accountInfo (a : AccountInformation)
  | orders (l : List Order)
  | order (o : Order)
  | transaction (t : Transaction)
  | testResp (t : TestResponse)
  | orderCanceled (o : OrderCanceled)
  | trades (l : List TradeHistory)
  | subAccount (s : SubAccountCreationResp)
deriving DecidableEq

/-- Modelled from the spec: the external HTTP collaborator; it may fail with
a transport or exchange-API error, and otherwise answers with a payload. -/
def Collaborator := HttpCall → Except HttpError RespData

/-- Modelled from the spec: the client configuration the façade holds
(`client.rs` is not part of the provided sources); only the signing secret
is relevant to this core. -/
structure Client where
  secret_key : String

/-- Account API access (`struct Account` in `src/account.rs`). -/
structure Account where
  client : Client
  recv_window : Nat

/-- Decoding of the response body (`from_str::<AccountInformation>`). -/
def decodeAccountInformation : RespData → Except Error AccountInformation
  | .accountInfo a => .ok a
  | _ => .error (.Decode "AccountInformation")

/-- Decoding of the response body (`from_str::<Vec<Order>>`). -/
def decodeOrders : RespData → Except Error (List Order)
  | .orders l => .ok l
  | _ => .error (.Decode "Vec<Order>")

/-- Decoding of the response body (`from_str::<Order>`). -/
def decodeOrder : RespData → Except Error Order
  | .order o => .ok o
  | _ => .error (.Decode "Order")

/-- Decoding of the response body (`from_str::<Transaction>`). -/
def decodeTransaction : RespData → Except Error Transaction
  | .transaction t => .ok t
  | _ => .error (.Decode "Transaction")

/-- Decoding of the response body (`from_str::<TestResponse>`). -/
def decodeTestResponse : RespData → Except Error TestResponse
  | .testResp t => .ok t
  | _ => .error (.Decode "TestResponse")

/-- Decoding of the response body (`from_str::<OrderCanceled>`). -/
def decodeOrderCanceled : RespData → Except Error OrderCanceled
  | .orderCanceled o => .ok o
  | _ => .error (.Decode "OrderCanceled")

/-- Decoding of the response body (`from_str::<Vec<TradeHistory>>`). -/
def decodeTrades : RespData → Except Error (List TradeHistory)
  | .trades l => .ok l
  | _ => .error (.Decode "Vec<TradeHistory>")

/-- Decoding of the response body (`from_str::<SubAccountCreationResp>`). -/
def decodeSubAccount : RespData → Except Error SubAccountCreationResp
  | .subAccount s => .ok s
  | _ => .error (.Decode "SubAccountCreationResp")

/-- The shared sign-dispatch-decode tail of every façade operation: build
the signed request (a signing failure aborts with no call), issue exactly
one call to the collaborator, decode the payload.  Returns the list of
calls performed together with the typed result. -/
def signedOp {α : Type} (acc : Account) (verb : Verb) (path : String) (ps : Params)
    (recvWindow now : Nat) (http : Collaborator) (dec : RespData → Except Error α) :
    List HttpCall × Except Error α :=
  match buildSignedParams acc.client.secret_key ps recvWindow now with
  | .error e => ([], .error e)
  | .ok sp =>
      let call : HttpCall := ⟨verb, path, sp⟩
      match http call with
      | .error e => ([call], .error e.toError)
      | .ok r => ([call], dec r)

/-- `Account::get_account`: GET `/api/v3/account` with the empty parameter
set and the façade's default receive-window. -/
def Account.get_account (acc : Account) (http : Collaborator) (now : Nat) :
    List HttpCall × Except Error AccountInformation :=
  signedOp acc .get API_V3_ACCOUNT (toParams []) acc.recv_window now http
    decodeAccountInformation

/-- The linear scan of `Account::get_balance` over the balances list:
first entry whose `asset` equals the requested one, else a local
"Asset not found" error. -/
def findBalance (cmp_asset : String) : List Balance → Except Error Balance
  | [] => .error (.Msg "Asset not found")
  | b :: rest => if b.asset = cmp_asset then .ok b else findBalance cmp_asset rest

/-- `Account::get_balance`: fetches the account once and post-filters the
balances locally; an account-fetch error is returned unchanged. -/
def Account.get_balance (acc : Account) (http : Collaborator) (now : Nat) (asset : String) :
    List HttpCall × Except Error Balance :=
  match Account.get_account acc http now with
  | (tr, .ok account) => (tr, findBalance asset account.balances)
  | (tr, .error e) => (tr, .error e)

/-- `Account::get_open_orders`: GET `/api/v3/openOrders` with a single
`symbol` parameter. -/
def Account.get_open_orders (acc : Account) (http : Collaborator) (now : Nat) (symbol : String) :
    List HttpCall × Except Error (List Order) :=
  signedOp acc .get API_V3_OPEN_ORDERS (toParams [("symbol", symbol)]) acc.recv_window now http
    decodeOrders

/-- `Account::get_all_orders`: GET `/api/v3/allOrders` with the full query
struct; the query's own `recv_window` takes precedence over the default. -/
def Account.get_all_orders (acc : Account) (http : Collaborator) (now : Nat) (query : OrdersQuery) :
    List HttpCall × Except Error (List Order) :=
  signedOp acc .get API_V3_ALL_ORDERS query.encode (query.recv_window.getD acc.recv_window) now
    http decodeOrders

/-- `Account::get_all_open_orders`: GET `/api/v3/openOrders` with the empty
parameter set. -/
def Account.get_all_open_orders (acc : Account) (http : Collaborator) (now : Nat) :
    List HttpCall × Except Error (List Order) :=
  signedOp acc .get API_V3_OPEN_ORDERS (toParams []) acc.recv_window now http decodeOrders

/-- `Account::cancel_all_open_orders`: DELETE `/api/v3/openOrders` with a
single `symbol` parameter. -/
def Account.cancel_all_open_orders (acc : Account) (http : Collaborator) (now : Nat)
    (symbol : String) : List HttpCall × Except Error (List Order) :=
  signedOp acc .delete API_V3_OPEN_ORDERS (toParams [("symbol", symbol)]) acc.recv_window now http
    decodeOrders

/-- `Account::order_status`: GET `/api/v3/order`; the request's own
`recv_window` takes precedence over the default. -/
def Account.order_status (acc : Account) (http : Collaborator) (now : Nat)
    (osr : OrderStatusRequest) : List HttpCall × Except Error Order :=
  signedOp acc .get API_V3_ORDER osr.encode (osr.recv_window.getD acc.recv_window) now http
    decodeOrder

/-- `Account::test_order_status`: like `order_status` but dispatched to the
sandbox endpoint `/api/v3/order/test` and decoded as `TestResponse`. -/
def Account.test_order_status (acc : Account) (http : Collaborator) (now : Nat)
    (osr : OrderStatusRequest) : List HttpCall × Except Error TestResponse :=
  signedOp acc .get API_V3_ORDER_TEST osr.encode (osr.recv_window.getD acc.recv_window) now http
    decodeTestResponse

/-- `Account::place_order`: validates the order, then POST `/api/v3/order`;
a validation failure aborts before any call to the collaborator. -/
def Account.place_order (acc : Account) (http : Collaborator) (now : Nat) (order : OrderRequest) :
    List HttpCall × Except Error Transaction :=
  match order.valid with
  | .error e => ([], .error e)
  | .ok _ =>
      signedOp acc .post API_V3_ORDER order.encode (order.recv_window.getD acc.recv_window) now
        http decodeTransaction

/-- `Account::place_test_order`: identical validation and request building
to `place_order`, dispatched to the sandbox endpoint `/api/v3/order/test`. -/
def Account.place_test_order (acc : Account) (http : Collaborator) (now : Nat)
    (order : OrderRequest) : List HttpCall × Except Error TestResponse :=
  match order.valid with
  | .error e => ([], .error e)
  | .ok _ =>
      signedOp acc .post API_V3_ORDER_TEST order.encode (order.recv_window.getD acc.recv_window)
        now http decodeTestResponse

/-- `Account::cancel_order`: DELETE `/api/v3/order`; the request's own
`recv_window` takes precedence over the default. -/
def Account.cancel_order (acc : Account) (http : Collaborator) (now : Nat)
    (o : OrderCancellation) : List HttpCall × Except Error OrderCanceled :=
  signedOp acc .delete API_V3_ORDER o.encode (o.recv_window.getD acc.recv_window) now http
    decodeOrderCanceled

/-- `Account::test_cancel_order`: like `cancel_order` but dispatched to the
sandbox endpoint `/api/v3/order/test`. -/
def Account.test_cancel_order (acc : Account) (http : Collaborator) (now : Nat)
    (o : OrderCancellation) : List HttpCall × Except Error TestResponse :=
  signedOp acc .delete API_V3_ORDER_TEST o.encode (o.recv_window.getD acc.recv_window) now http
    decodeTestResponse

/-- `Account::trade_history`: GET `/api/v3/myTrades` with a single `symbol`
parameter. -/
def Account.trade_history (acc : Account) (http : Collaborator) (now : Nat) (symbol : String) :
    List HttpCall × Except Error (List TradeHistory) :=
  signedOp acc .get API_V3_MYTRADES (toParams [("symbol", symbol)]) acc.recv_window now http
    decodeTrades

/-- `Account::create_sub_account`: POST `/sapi/v1/sub-account/virtualSubAccount`
with the sub-account label payload. -/
def Account.create_sub_account (acc : Account) (http : Collaborator) (now : Nat) (label : String) :
    List HttpCall × Except Error SubAccountCreationResp :=
  signedOp acc .post API_VIRTUAL_SUB_ACCOUNT (SubAccountCreationReq.mk label).encode
    acc.recv_window now http decodeSubAccount

/-- One invocation of a façade operation, with its input. -/
inductive FacadeOp
  | getAccount
  | getBalance (asset : String)
  | getOpenOrders (symbol : String)
  | getAllOrders (q : OrdersQuery)
  | getAllOpenOrders
  | cancelAllOpenOrders (symbol : String)
  | orderStatus (osr : OrderStatusRequest)
  | testOrderStatus (osr : OrderStatusRequest)
  | placeOrder (o : OrderRequest)
  | placeTestOrder (o : OrderRequest)
  | cancelOrder (oc : OrderCancellation)
  | testCancelOrder (oc : OrderCancellation)
  | tradeHistory (symbol : String)
  | createSubAccount (label : String)

/-- The HTTP calls a façade operation performs. -/
def FacadeOp.trace (op : FacadeOp) (acc : Account) (http : Collaborator) (now : Nat) :
    List HttpCall :=
  match op with
  | .getAccount => (Account.get_account acc http now).1
  | .getBalance asset => (Account.get_balance acc http now asset).1
  | .getOpenOrders symbol => (Account.get_open_orders acc http now symbol).1
  | .getAllOrders q => (Account.get_all_orders acc http now q).1
  | .getAllOpenOrders => (Account.get_all_open_orders acc http now).1
  | .cancelAllOpenOrders symbol => (Account.cancel_all_open_orders acc http now symbol).1
  | .orderStatus osr => (Account.order_status acc http now osr).1
  | .testOrderStatus osr => (Account.test_order_status acc http now osr).1
  | .placeOrder o => (Account.place_order acc http now o).1
  | .placeTestOrder o => (Account.place_test_order acc http now o).1
  | .cancelOrder oc => (Account.cancel_order acc http now oc).1
  | .testCancelOrder oc => (Account.test_cancel_order acc http now oc).1
  | .tradeHistory symbol => (Account.trade_history acc http now symbol).1
  | .createSubAccount label => (Account.create_sub_account acc http now label).1

/-! ## Order theory of the lexicographic key comparison -/

theorem char_toNat_inj {a b : Char} (h : a.toNat = b.toNat) : a = b := by
  have ha := Char.ofNat_toNat a
  rw [h] at ha
  rw [← ha, Char.ofNat_toNat]

theorem string_ext {s t : String} (h : s.data = t.data) : s = t := by
  cases s; cases t; exact congrArg String.mk h

theorem charListLt_irrefl : ∀ l : List Char, charListLt l l = false := by
  intro l
  induction l with
  | nil => rfl
  | cons a as ih => simp [charListLt, ih]

theorem charListLt_trans :
    ∀ l₁ l₂ l₃ : List Char,
      charListLt l₁ l₂ = true → charListLt l₂ l₃ = true → charListLt l₁ l₃ = true := by
  intro l₁
  induction l₁ with
  | nil =>
    intro l₂ l₃ h₁ h₂
    cases l₂ with
    | nil => simp [charListLt] at h₁
    | cons b bs =>
      cases l₃ with
      | nil => simp [charListLt] at h₂
      | cons c cs => rfl
  | cons a as ih =>
    intro l₂ l₃ h₁ h₂
    cases l₂ with
    | nil => simp [charListLt] at h₁
    | cons b bs =>
      cases l₃ with
      | nil => simp [charListLt] at h₂
      | cons c cs =>
        simp only [charListLt] at h₁ h₂ ⊢
        split_ifs at h₁ h₂ ⊢ <;>
          first
            | rfl
            | exact ih bs cs h₁ h₂
            | exact absurd h₁ Bool.false_ne_true
            | exact absurd h₂ Bool.false_ne_true
            | (exfalso; omega)

theorem charListLt_cases :
    ∀ l₁ l₂ : List Char, charListLt l₁ l₂ = true ∨ l₁ = l₂ ∨ charListLt l₂ l₁ = true := by
  intro l₁
  induction l₁ with
  | nil =>
    intro l₂
    cases l₂ with
    | nil => exact Or.inr (Or.inl rfl)
    | cons b bs => exact Or.inl rfl
  | cons a as ih =>
    intro l₂
    cases l₂ with
    | nil => exact Or.inr (Or.inr rfl)
    | cons b bs =>
      rcases Nat.lt_trichotomy a.toNat b.toNat with h | h | h
      · exact Or.inl (by simp [charListLt, h])
      · have hab : a = b := char_toNat_inj h
        subst hab
        rcases ih bs with h' | h' | h'
        · exact Or.inl (by simp [charListLt, h'])
        · exact Or.inr (Or.inl (by rw [h']))
        · exact Or.inr (Or.inr (by simp [charListLt, h']))
      · exact Or.inr (Or.inr (by simp [charListLt, h]))

theorem strLt_irrefl (s : String) : strLt s s = false := charListLt_irrefl s.data

theorem strLt_trans {a b c : String} (h₁ : strLt a b = true) (h₂ : strLt b c = true) :
    strLt a c = true :=
  charListLt_trans a.data b.data c.data h₁ h₂

theorem strLt_asymm {a b : String} (h : strLt a b = true) : ¬strLt b a = true := by
  intro hc
  have := strLt_trans h hc
  rw [strLt_irrefl] at this
  exact Bool.false_ne_true this

theorem strLt_cases (a b : String) : strLt a b = true ∨ a = b ∨ strLt b a = true := by
  rcases charListLt_cases a.data b.data with h | h | h
  · exact Or.inl h
  · exact Or.inr (Or.inl (string_ext h))
  · exact Or.inr (Or.inr h)

theorem strLt_ne {a b : String} (h : strLt a b = true) : a ≠ b := by
  intro he
  subst he
  rw [strLt_irrefl] at h
  exact Bool.false_ne_true h

/-! ## Lemmas about the canonical parameter map -/

/-- A parameter list is canonical when its keys are strictly sorted
(lexicographically) — which also makes them unique. -/
def keySorted (ps : Params) : Prop := ps.Pairwise (fun a b => strLt a.1 b.1 = true)

theorem insertParam_nil (k v : String) : insertParam k v [] = [(k, v)] := rfl

theorem insertParam_cons (k v k' v' : String) (rest : Params) :
    insertParam k v ((k', v') :: rest) =
      if strLt k k' = true then (k, v) :: (k', v') :: rest
      else if k = k' then (k, v) :: rest
      else (k', v') :: insertParam k v rest := rfl

theorem lookup_nil (k : String) : List.lookup k ([] : Params) = none := rfl

theorem lookup_cons (k k' v : String) (ps : Params) :
    List.lookup k ((k', v) :: ps) = if k' = k then some v else List.lookup k ps := by
  by_cases h : k' = k
  · subst h; simp [List.lookup]
  · have hb : (k == k') = false := by
      simp [Ne.symm h]
    simp [List.lookup, hb, h]

theorem lastWrite_nil (k : String) : lastWrite [] k = none := rfl

theorem lastWrite_cons (k k' v : String) (rest : List (String × String)) :
    lastWrite ((k', v) :: rest) k =
      match lastWrite rest k with
      | some v' => some v'
      | none => if k' = k then some v else none := rfl

theorem mem_insertParam (k v : String) :
    ∀ (ps : Params) (p : String × String), p ∈ insertParam k v ps → p = (k, v) ∨ p ∈ ps := by
  intro ps
  induction ps with
  | nil =>
    intro p hp
    rw [insertParam_nil] at hp
    exact Or.inl (List.mem_singleton.mp hp)
  | cons q rest ih =>
    obtain ⟨k', v'⟩ := q
    intro p hp
    rw [insertParam_cons] at hp
    split_ifs at hp with h1 h2
    · rcases List.mem_cons.mp hp with he | hm
      · exact Or.inl he
      · exact Or.inr hm
    · rcases List.mem_cons.mp hp with he | hm
      · exact Or.inl he
      · exact Or.inr (List.mem_cons_of_mem _ hm)
    · rcases List.mem_cons.mp hp with he | hm
      · exact Or.inr (he ▸ List.mem_cons_self _ _)
      · rcases ih p hm with h | h
        · exact Or.inl h
        · exact Or.inr (List.mem_cons_of_mem _ h)

theorem insertParam_sorted (k v : String) :
    ∀ ps : Params, keySorted ps → keySorted (insertParam k v ps) := by
  intro ps
  induction ps with
  | nil => intro _; simp [insertParam_nil, keySorted]
  | cons q rest ih =>
    obtain ⟨k', v'⟩ := q
    intro hs
    rw [keySorted, List.pairwise_cons] at hs
    obtain ⟨hhead, htail⟩ := hs
    rw [insertParam_cons]
    rcases strLt_cases k k' with h | h | h
    · rw [if_pos h, keySorted, List.pairwise_cons]
      refine ⟨?_, ?_⟩
      · intro p hp
        rcases List.mem_cons.mp hp with he | hm
        · rw [he]; exact h
        · exact strLt_trans h (hhead p hm)
      · rw [List.pairwise_cons]
        exact ⟨hhead, htail⟩
    · rw [if_neg (by rw [h, strLt_irrefl]; exact Bool.false_ne_true), if_pos h, keySorted, List.pairwise_cons]
      exact ⟨fun p hp => h ▸ hhead p hp, htail⟩
    · rw [if_neg (strLt_asymm h), if_neg (Ne.symm (strLt_ne h)), keySorted, List.pairwise_cons]
      refine ⟨?_, ih htail⟩
      intro p hp
      rcases mem_insertParam k v rest p hp with he | hm
      · rw [he]; exact h
      · exact hhead p hm

theorem lookup_insertParam_self (k v : String) :
    ∀ ps : Params, List.lookup k (insertParam k v ps) = some v := by
  intro ps
  induction ps with
  | nil => rw [insertParam_nil, lookup_cons, if_pos rfl]
  | cons q rest ih =>
    obtain ⟨k', v'⟩ := q
    rw [insertParam_cons]
    rcases strLt_cases k k' with h | h | h
    · rw [if_pos h, lookup_cons, if_pos rfl]
    · rw [if_neg (by rw [h, strLt_irrefl]; exact Bool.false_ne_true), if_pos h, lookup_cons, if_pos rfl]
    · rw [if_neg (strLt_asymm h), if_neg (Ne.symm (strLt_ne h)), lookup_cons, if_neg (strLt_ne h), ih]

theorem lookup_insertParam_ne (k v k'' : String) (hne : k'' ≠ k) :
    ∀ ps : Params, List.lookup k'' (insertParam k v ps) = List.lookup k'' ps := by
  intro ps
  induction ps with
  | nil => rw [insertParam_nil, lookup_cons, if_neg (fun h => hne h.symm), lookup_nil]
  | cons q rest ih =>
    obtain ⟨k', v'⟩ := q
    rw [insertParam_cons]
    rcases strLt_cases k k' with h | h | h
    · rw [if_pos h, lookup_cons, if_neg (fun he => hne he.symm)]
    · rw [if_neg (by rw [h, strLt_irrefl]; exact Bool.false_ne_true), if_pos h, lookup_cons,
        if_neg (fun he => hne he.symm), lookup_cons, if_neg (fun he => hne (h.trans he).symm)]
    · rw [if_neg (strLt_asymm h), if_neg (Ne.symm (strLt_ne h)), lookup_cons, lookup_cons, ih]

theorem lookup_eq_none_of_keys_ne (k : String) :
    ∀ ps : Params, (∀ p ∈ ps, p.1 ≠ k) → List.lookup k ps = none := by
  intro ps
  induction ps with
  | nil => intro _; rfl
  | cons q rest ih =>
    obtain ⟨k', v'⟩ := q
    intro h
    rw [lookup_cons, if_neg (h (k', v') (List.mem_cons_self _ _))]
    exact ih fun p hp => h p (List.mem_cons_of_mem _ hp)

theorem lookup_foldl_insert (k : String) :
    ∀ (w : List (String × String)) (m : Params),
      List.lookup k (w.foldl (fun m kv => insertParam kv.1 kv.2 m) m) =
        match lastWrite w k with
        | some v => some v
        | none => List.lookup k m := by
  intro w
  induction w with
  | nil => intro m; rfl
  | cons q rest ih =>
    obtain ⟨k', v'⟩ := q
    intro m
    rw [List.foldl_cons, ih, lastWrite_cons]
    cases hl : lastWrite rest k with
    | some v => rfl
    | none =>
      by_cases h : k' = k
      · subst h
        rw [lookup_insertParam_self, if_pos rfl]
      · rw [lookup_insertParam_ne k' v' k (fun he => h he.symm), if_neg h]

theorem lookup_toParams (w : List (String × String)) (k : String) :
    List.lookup k (toParams w) = lastWrite w k := by
  rw [toParams, lookup_foldl_insert]
  cases lastWrite w k <;> rfl

theorem foldl_insert_sorted :
    ∀ (w : List (String × String)) (m : Params), keySorted m →
      keySorted (w.foldl (fun m kv => insertParam kv.1 kv.2 m) m) := by
  intro w
  induction w with
  | nil => intro m hm; exact hm
  | cons q rest ih =>
    intro m hm
    rw [List.foldl_cons]
    exact ih _ (insertParam_sorted q.1 q.2 m hm)

theorem toParams_sorted (w : List (String × String)) : keySorted (toParams w) := by
  rw [toParams]
  exact foldl_insert_sorted w [] List.Pairwise.nil

theorem keySorted_lookup_ext :
    ∀ m₁ m₂ : Params, keySorted m₁ → keySorted m₂ →
      (∀ k, List.lookup k m₁ = List.lookup k m₂) → m₁ = m₂ := by
  intro m₁
  induction m₁ with
  | nil =>
    intro m₂ _ _ h
    cases m₂ with
    | nil => rfl
    | cons q t =>
      obtain ⟨k, v⟩ := q
      have hk := (h k).symm
      rw [lookup_cons, if_pos rfl, lookup_nil] at hk
      exact absurd hk (by simp)
  | cons p t₁ ih =>
    obtain ⟨k₁, v₁⟩ := p
    intro m₂ hs₁ hs₂ h
    rw [keySorted, List.pairwise_cons] at hs₁
    obtain ⟨hhead₁, htail₁⟩ := hs₁
    cases m₂ with
    | nil =>
      have hk := h k₁
      rw [lookup_cons, if_pos rfl, lookup_nil] at hk
      exact absurd hk (by simp)
    | cons q t₂ =>
      obtain ⟨k₂, v₂⟩ := q
      rw [keySorted, List.pairwise_cons] at hs₂
      obtain ⟨hhead₂, htail₂⟩ := hs₂
      have hk : k₁ = k₂ := by
        rcases strLt_cases k₁ k₂ with hlt | he | hgt
        · exfalso
          have h1 := h k₁
          rw [lookup_cons, if_pos rfl, lookup_cons, if_neg (Ne.symm (strLt_ne hlt)),
            lookup_eq_none_of_keys_ne k₁ t₂
              (fun p hp => Ne.symm (strLt_ne (strLt_trans hlt (hhead₂ p hp))))] at h1
          exact absurd h1 (by simp)
        · exact he
        · exfalso
          have h1 := h k₂
          rw [lookup_cons, if_neg (Ne.symm (strLt_ne hgt)),
            lookup_eq_none_of_keys_ne k₂ t₁
              (fun p hp => Ne.symm (strLt_ne (strLt_trans hgt (hhead₁ p hp)))),
            lookup_cons, if_pos rfl] at h1
          exact absurd h1 (by simp)
      subst hk
      have hv : v₁ = v₂ := by
        have h1 := h k₁
        rw [lookup_cons, if_pos rfl, lookup_cons, if_pos rfl] at h1
        exact Option.some.inj h1
      subst hv
      congr 1
      refine ih t₂ htail₁ htail₂ ?_
      · intro k
        by_cases hk : k₁ = k
        · subst hk
          rw [lookup_eq_none_of_keys_ne k₁ t₁ (fun p hp => Ne.symm (strLt_ne (hhead₁ p hp))),
            lookup_eq_none_of_keys_ne k₁ t₂ (fun p hp => Ne.symm (strLt_ne (hhead₂ p hp)))]
        · have h1 := h k
          rw [lookup_cons, if_neg hk, lookup_cons, if_neg hk] at h1
          exact h1

/-! ## Claim C4: canonical encoding is assignment-order independent -/

/-- C4: for any two request objects holding the same field values but
constructed with fields assigned in different orders — i.e. any two write
sequences recording the same last value for every key — the canonical
parameter encoder produces identical parameter sequences; moreover the
output keys are sorted lexicographically and strictly (hence unique), and
the binding kept for each key is the last write of that key. -/
theorem C4_encoder_canonical :
    (∀ w₁ w₂ : List (String × String),
        (∀ k, lastWrite w₁ k = lastWrite w₂ k) → toParams w₁ = toParams w₂) ∧
    (∀ w : List (String × String), keySorted (toParams w)) ∧
    (∀ (w : List (String × String)) (k : String),
        List.lookup k (toParams w) = lastWrite w k) := by
  refine ⟨?_, toParams_sorted, lookup_toParams⟩
  intro w₁ w₂ h
  refine keySorted_lookup_ext _ _ (toParams_sorted w₁) (toParams_sorted w₂) ?_
  intro k
  rw [lookup_toParams, lookup_toParams]
  exact h k

/-- A write sequence assigning `side` (twice — the last write wins) and
`symbol`, in one order. -/
def writesA : List (String × String) :=
  [("side", "BUY"), ("symbol", "BTCUSDT"), ("side", "SELL")]

/-- The same final field values assigned in a different order. -/
def writesB : List (String × String) :=
  [("symbol", "BTCUSDT"), ("side", "SELL")]

/-- C4 witness: concrete instantiation on two assignment orders with a
duplicate write. -/
theorem C4_witness : toParams writesA = toParams writesB :=
  C4_encoder_canonical.1 writesA writesB (by
    intro k
    by_cases h1 : k = "side"
    · subst h1; rfl
    · by_cases h2 : k = "symbol"
      · subst h2; rfl
      · simp [writesA, writesB, lastWrite, Ne.symm h1, Ne.symm h2])

/-! ## Claim C5: the signer is deterministic -/

/-- C5: for a fixed parameter set, fixed secret and fixed injected
timestamp, two invocations of the request signer produce byte-identical
signed query strings. -/
theorem C5_signer_deterministic :
    ∀ (secret : String) (ps : Params) (w t : Nat) (q₁ q₂ : Except Error String),
      signedQueryString secret ps w t = q₁ → signedQueryString secret ps w t = q₂ →
      q₁ = q₂ := by
  intro secret ps w t q₁ q₂ h₁ h₂
  rw [← h₁, ← h₂]

/-- C5 witness: two invocations on the concrete fixed input coincide. -/
theorem C5_witness :
    signedQueryString "key" (toParams []) 5000 1700000000000 =
      signedQueryString "key" (toParams []) 5000 1700000000000 :=
  C5_signer_deterministic "key" (toParams []) 5000 1700000000000 _ _ rfl rfl

/-! ## Claim C3: golden signing of the empty parameter set -/

/-- C3 counterexample: under lexicographic key ordering the canonical
string of the empty parameter set signed with receive-window 5000 and
timestamp 1700000000000 is NOT `timestamp=1700000000000&recvWindow=5000`
(`recvWindow` sorts before `timestamp`). -/
theorem C3_counterexample :
    canonicalToSign (toParams []) 5000 1700000000000 ≠
      "timestamp=1700000000000&recvWindow=5000" := by
  decide

set_option maxRecDepth 10000 in
/-- C3 (amended): signing the empty parameter set with secret `"key"`,
injected timestamp 1700000000000 and default receive-window 5000 produces
the canonical string `recvWindow=5000&timestamp=1700000000000` (keys in
lexicographic order) and reproduces the fixed HMAC-SHA256 hex digest
`4607ec22f563ece820f7a4c504e2a10e38ff2a8f9846361789e95ed6ec04397f`,
appended as the final `signature` parameter. -/
theorem C3_golden_signing :
    canonicalToSign (toParams []) 5000 1700000000000 =
      "recvWindow=5000&timestamp=1700000000000" ∧
    hmacSha256Hex "key" "recvWindow=5000&timestamp=1700000000000" =
      "4607ec22f563ece820f7a4c504e2a10e38ff2a8f9846361789e95ed6ec04397f" ∧
    signedQueryString "key" (toParams []) 5000 1700000000000 =
      .ok ("recvWindow=5000&timestamp=1700000000000&signature=" ++
        "4607ec22f563ece820f7a4c504e2a10e38ff2a8f9846361789e95ed6ec04397f") := by
  exact ⟨by decide, by decide, by rfl⟩

/-! ## Lemmas about the signer and the shared dispatch pipeline -/

theorem buildSignedParams_ok_shape {secret : String} {ps : Params} {w t : Nat} {sp : Params}
    (h : buildSignedParams secret ps w t = .ok sp) :
    sp = presignParams ps w t ++
      [("signature", hmacSha256Hex secret (queryString (presignParams ps w t)))] := by
  unfold buildSignedParams at h
  split at h
  · exact absurd h (by simp)
  · exact (Except.ok.inj h).symm

theorem buildSignedParams_error {secret : String} {ps : Params} {w t : Nat} {e : Error}
    (h : buildSignedParams secret ps w t = .error e) : e = .Config "Missing secret key" := by
  unfold buildSignedParams at h
  split at h
  · exact (Except.error.inj h).symm
  · exact absurd h (by simp)

theorem lookup_append_of_some {k v : String} :
    ∀ l₁ l₂ : Params, List.lookup k l₁ = some v → List.lookup k (l₁ ++ l₂) = some v := by
  intro l₁ l₂
  induction l₁ with
  | nil => intro h; rw [lookup_nil] at h; exact absurd h (by simp)
  | cons p t ih =>
    obtain ⟨k', v'⟩ := p
    intro h
    rw [lookup_cons] at h
    rw [List.cons_append, lookup_cons]
    by_cases he : k' = k
    · rw [if_pos he] at h ⊢; exact h
    · rw [if_neg he] at h ⊢; exact ih h

theorem lookup_presign_recvWindow (ps : Params) (w t : Nat) :
    List.lookup "recvWindow" (presignParams ps w t) = some (toString w) := by
  rw [presignParams, lookup_insertParam_ne _ _ _ (by decide), lookup_insertParam_self]

theorem lookup_presign_timestamp (ps : Params) (w t : Nat) :
    List.lookup "timestamp" (presignParams ps w t) = some (toString t) := by
  rw [presignParams, lookup_insertParam_self]

theorem lookup_signed_recvWindow {secret : String} {ps : Params} {w t : Nat} {sp : Params}
    (h : buildSignedParams secret ps w t = .ok sp) :
    List.lookup "recvWindow" sp = some (toString w) := by
  rw [buildSignedParams_ok_shape h]
  exact lookup_append_of_some _ _ (lookup_presign_recvWindow ps w t)

theorem lookup_signed_timestamp {secret : String} {ps : Params} {w t : Nat} {sp : Params}
    (h : buildSignedParams secret ps w t = .ok sp) :
    List.lookup "timestamp" sp = some (toString t) := by
  rw [buildSignedParams_ok_shape h]
  exact lookup_append_of_some _ _ (lookup_presign_timestamp ps w t)

theorem getLast_signed_signature {secret : String} {ps : Params} {w t : Nat} {sp : Params}
    (h : buildSignedParams secret ps w t = .ok sp) :
    sp.getLast?.map Prod.fst = some "signature" := by
  rw [buildSignedParams_ok_shape h, List.getLast?_concat]
  rfl

/-- Invariant of every signed request: `recvWindow` and `timestamp` present,
`signature` last. -/
def goodSignedCall (c : HttpCall) : Bool :=
  (List.lookup "recvWindow" c.params).isSome &&
    ((List.lookup "timestamp" c.params).isSome &&
      (c.params.getLast?.map Prod.fst == some "signature"))

theorem goodSignedCall_of_ok {secret : String} {ps : Params} {w t : Nat} {sp : Params}
    (h : buildSignedParams secret ps w t = .ok sp) (verb : Verb) (path : String) :
    goodSignedCall ⟨verb, path, sp⟩ = true := by
  rw [goodSignedCall]
  simp only [lookup_signed_recvWindow h, lookup_signed_timestamp h, getLast_signed_signature h]
  rfl

theorem signedOp_trace {α : Type} (acc : Account) (verb : Verb) (path : String) (ps : Params)
    (w now : Nat) (http : Collaborator) (dec : RespData → Except Error α) :
    (signedOp acc verb path ps w now http dec).1 =
      match buildSignedParams acc.client.secret_key ps w now with
      | .error _ => []
      | .ok sp => [⟨verb, path, sp⟩] := by
  cases h : buildSignedParams acc.client.secret_key ps w now with
  | error e => simp [signedOp, h]
  | ok sp =>
    cases hh : http ⟨verb, path, sp⟩ with
    | error e => simp [signedOp, h, hh]
    | ok r => simp [signedOp, h, hh]

theorem signedOp_trace_all {α : Type} (acc : Account) (verb : Verb) (path : String)
    (ps : Params) (w now : Nat) (http : Collaborator) (dec : RespData → Except Error α)
    (p : HttpCall → Bool)
    (hp : ∀ sp, buildSignedParams acc.client.secret_key ps w now = .ok sp →
      p ⟨verb, path, sp⟩ = true) :
    ((signedOp acc verb path ps w now http dec).1.all p) = true := by
  rw [signedOp_trace]
  cases h : buildSignedParams acc.client.secret_key ps w now with
  | error e => rfl
  | ok sp => simp [hp sp h]

theorem signedOp_trace_len {α : Type} (acc : Account) (verb : Verb) (path : String)
    (ps : Params) (w now : Nat) (http : Collaborator) (dec : RespData → Except Error α) :
    (signedOp acc verb path ps w now http dec).1.length ≤ 1 := by
  rw [signedOp_trace]
  cases buildSignedParams acc.client.secret_key ps w now with
  | error e => exact Nat.zero_le 1
  | ok sp => exact Nat.le_refl 1

theorem get_balance_trace (acc : Account) (http : Collaborator) (now : Nat) (asset : String) :
    (Account.get_balance acc http now asset).1 = (Account.get_account acc http now).1 := by
  show (match Account.get_account acc http now with
    | (tr, .ok account) => (tr, findBalance asset account.balances)
    | (tr, .error e) => ((tr : List HttpCall), (.error e : Except Error Balance))).1 =
      (Account.get_account acc http now).1
  rcases Account.get_account acc http now with ⟨tr, res⟩
  cases res with
  | ok account => rfl
  | error e => rfl

/-! ## Claim C8: recvWindow/timestamp always present, signature always last -/

/-- C8: every signed request produced by any façade operation carries a
`recvWindow` parameter and a `timestamp` parameter, and its `signature`
parameter is the last one. -/
theorem C8_signed_request_invariants :
    ∀ (acc : Account) (http : Collaborator) (now : Nat) (op : FacadeOp),
      ((FacadeOp.trace op acc http now).all goodSignedCall) = true := by
  intro acc http now op
  have hso : ∀ {α : Type} (verb : Verb) (path : String) (ps : Params) (w : Nat)
      (dec : RespData → Except Error α),
      ((signedOp acc verb path ps w now http dec).1.all goodSignedCall) = true :=
    fun verb path ps w dec =>
      signedOp_trace_all acc verb path ps w now http dec goodSignedCall
        (fun sp h => goodSignedCall_of_ok h verb path)
  cases op with
  | getAccount => exact hso _ _ _ _ _
  | getBalance asset =>
    show ((Account.get_balance acc http now asset).1.all goodSignedCall) = true
    rw [get_balance_trace]
    exact hso _ _ _ _ _
  | getOpenOrders symbol => exact hso _ _ _ _ _
  | getAllOrders q => exact hso _ _ _ _ _
  | getAllOpenOrders => exact hso _ _ _ _ _
  | cancelAllOpenOrders symbol => exact hso _ _ _ _ _
  | orderStatus osr => exact hso _ _ _ _ _
  | testOrderStatus osr => exact hso _ _ _ _ _
  | placeOrder o =>
    show ((Account.place_order acc http now o).1.all goodSignedCall) = true
    cases hv : o.valid with
    | error e => simp [Account.place_order, hv]
    | ok u => simp only [Account.place_order, hv]; exact hso _ _ _ _ _
  | placeTestOrder o =>
    show ((Account.place_test_order acc http now o).1.all goodSignedCall) = true
    cases hv : o.valid with
    | error e => simp [Account.place_test_order, hv]
    | ok u => simp only [Account.place_test_order, hv]; exact hso _ _ _ _ _
  | cancelOrder oc => exact hso _ _ _ _ _
  | testCancelOrder oc => exact hso _ _ _ _ _
  | tradeHistory symbol => exact hso _ _ _ _ _
  | createSubAccount label => exact hso _ _ _ _ _

/-! ## Claim C6: per-request receive-window takes precedence -/

/-- C6: for each request struct carrying an optional `recv_window`
(`OrderRequest`, `OrderStatusRequest`, `OrderCancellation`, `OrdersQuery`),
every request the corresponding operation signs carries
`recvWindow` = the struct's own value when present, and the façade's
configured default otherwise. -/
theorem C6_recv_window_precedence :
    ∀ (acc : Account) (http : Collaborator) (now : Nat),
      (∀ o : OrderRequest,
        ((Account.place_order acc http now o).1.all
          (fun c => List.lookup "recvWindow" c.params ==
            some (toString (o.recv_window.getD acc.recv_window)))) = true) ∧
      (∀ osr : OrderStatusRequest,
        ((Account.order_status acc http now osr).1.all
          (fun c => List.lookup "recvWindow" c.params ==
            some (toString (osr.recv_window.getD acc.recv_window)))) = true) ∧
      (∀ oc : OrderCancellation,
        ((Account.cancel_order acc http now oc).1.all
          (fun c => List.lookup "recvWindow" c.params ==
            some (toString (oc.recv_window.getD acc.recv_window)))) = true) ∧
      (∀ q : OrdersQuery,
        ((Account.get_all_orders acc http now q).1.all
          (fun c => List.lookup "recvWindow" c.params ==
            some (toString (q.recv_window.getD acc.recv_window)))) = true) := by
  intro acc http now
  have hso : ∀ {α : Type} (verb : Verb) (path : String) (ps : Params) (w : Nat)
      (dec : RespData → Except Error α),
      ((signedOp acc verb path ps w now http dec).1.all
        (fun c => List.lookup "recvWindow" c.params == some (toString w))) = true :=
    fun verb path ps w dec =>
      signedOp_trace_all acc verb path ps w now http dec _
        (fun sp h => by simp [lookup_signed_recvWindow h])
  refine ⟨?_, fun osr => hso _ _ _ _ _, fun oc => hso _ _ _ _ _, fun q => hso _ _ _ _ _⟩
  intro o
  cases hv : o.valid with
  | error e => simp [Account.place_order, hv]
  | ok u => simp only [Account.place_order, hv]; exact hso _ _ _ _ _

/-! ## Claim C1: the iceberg validation gate -/

theorem decodeTransaction_no_validation_error :
    ∀ (r : RespData) (m : String), decodeTransaction r ≠ .error (.InvalidOrderError m) := by
  intro r m
  cases r <;> simp [decodeTransaction]

theorem decodeTestResponse_no_validation_error :
    ∀ (r : RespData) (m : String), decodeTestResponse r ≠ .error (.InvalidOrderError m) := by
  intro r m
  cases r <;> simp [decodeTestResponse]

theorem signedOp_no_validation_error {α : Type} (acc : Account) (verb : Verb) (path : String)
    (ps : Params) (w now : Nat) (http : Collaborator) (dec : RespData → Except Error α)
    (hdec : ∀ (r : RespData) (m : String), dec r ≠ .error (.InvalidOrderError m)) :
    ∀ m, (signedOp acc verb path ps w now http dec).2 ≠ .error (.InvalidOrderError m) := by
  intro m
  cases h : buildSignedParams acc.client.secret_key ps w now with
  | error e =>
    rw [buildSignedParams_error h] at h
    simp [signedOp, h]
  | ok sp =>
    cases hh : http ⟨verb, path, sp⟩ with
    | error e => cases e <;> simp [signedOp, h, hh, HttpError.toError]
    | ok r =>
      simp only [signedOp, h, hh]
      exact hdec r m

/-- C1: `place_order` and `place_test_order` return the iceberg validation
error exactly when `iceberg_qty` is set and `time_in_force` is not GTC
(including absent); in that case no call reaches the HTTP collaborator
(empty call trace), and in no other case is a validation error returned. -/
theorem C1_validation_gate :
    ∀ (acc : Account) (http : Collaborator) (now : Nat) (o : OrderRequest),
      ((o.iceberg_qty.isSome ∧ o.time_in_force ≠ some TimeInForce.GTC) →
        Account.place_order acc http now o =
          ([], .error (.InvalidOrderError "Time in force has to be GTC for iceberg orders")) ∧
        Account.place_test_order acc http now o =
          ([], .error (.InvalidOrderError "Time in force has to be GTC for iceberg orders"))) ∧
      (¬(o.iceberg_qty.isSome ∧ o.time_in_force ≠ some TimeInForce.GTC) →
        (∀ m, (Account.place_order acc http now o).2 ≠ .error (.InvalidOrderError m)) ∧
        (∀ m, (Account.place_test_order acc http now o).2 ≠ .error (.InvalidOrderError m))) := by
  intro acc http now o
  constructor
  · intro hcond
    have hv : o.valid =
        .error (.InvalidOrderError "Time in force has to be GTC for iceberg orders") := by
      rw [OrderRequest.valid, if_pos hcond]
    constructor
    · show (match o.valid with
        | .error e => (([] : List HttpCall), (.error e : Except Error Transaction))
        | .ok _ => signedOp acc .post API_V3_ORDER o.encode (o.recv_window.getD acc.recv_window)
            now http decodeTransaction) = _
      rw [hv]
    · show (match o.valid with
        | .error e => (([] : List HttpCall), (.error e : Except Error TestResponse))
        | .ok _ => signedOp acc .post API_V3_ORDER_TEST o.encode
            (o.recv_window.getD acc.recv_window) now http decodeTestResponse) = _
      rw [hv]
  · intro hcond
    have hv : o.valid = .ok () := by
      rw [OrderRequest.valid, if_neg hcond]
    constructor
    · intro m
      show (match o.valid with
        | .error e => (([] : List HttpCall), (.error e : Except Error Transaction))
        | .ok _ => signedOp acc .post API_V3_ORDER o.encode (o.recv_window.getD acc.recv_window)
            now http decodeTransaction).2 ≠ _
      rw [hv]
      exact signedOp_no_validation_error acc .post API_V3_ORDER o.encode
        (o.recv_window.getD acc.recv_window) now http decodeTransaction
        decodeTransaction_no_validation_error m
    · intro m
      show (match o.valid with
        | .error e => (([] : List HttpCall), (.error e : Except Error TestResponse))
        | .ok _ => signedOp acc .post API_V3_ORDER_TEST o.encode
            (o.recv_window.getD acc.recv_window) now http decodeTestResponse).2 ≠ _
      rw [hv]
      exact signedOp_no_validation_error acc .post API_V3_ORDER_TEST o.encode
        (o.recv_window.getD acc.recv_window) now http decodeTestResponse
        decodeTestResponse_no_validation_error m

/-- A collaborator that always fails with a transport error. -/
def httpOffline : Collaborator := fun _ => .error (.transport "offline")

/-- A façade configured with secret `"key"` and default receive-window 5000. -/
def acc0 : Account := ⟨⟨"key"⟩, 5000⟩

/-- An iceberg order without GTC time-in-force. -/
def icebergOrder : OrderRequest :=
  ⟨"BTCUSDT", .Buy, .Limit, none, some "10", none, some "0.014", none, none, some "2", none, none⟩

/-- C1 witness: the concrete iceberg order with absent time-in-force is
rejected by both order paths with the validation error and an empty call
trace. -/
theorem C1_witness :
    Account.place_order acc0 httpOffline 1700000000000 icebergOrder =
      ([], .error (.InvalidOrderError "Time in force has to be GTC for iceberg orders")) ∧
    Account.place_test_order acc0 httpOffline 1700000000000 icebergOrder =
      ([], .error (.InvalidOrderError "Time in force has to be GTC for iceberg orders")) :=
  (C1_validation_gate acc0 httpOffline 1700000000000 icebergOrder).1 ⟨by decide, by decide⟩

/-! ## Claim C2: test operations mirror their live counterparts -/

theorem signedOp_retarget {α β : Type} (acc : Account) (verb : Verb) (p₁ p₂ : String)
    (ps : Params) (w now : Nat) (http : Collaborator)
    (dec₁ : RespData → Except Error α) (dec₂ : RespData → Except Error β) :
    (signedOp acc verb p₂ ps w now http dec₂).1 =
      (signedOp acc verb p₁ ps w now http dec₁).1.map
        (fun c => ⟨c.verb, p₂, c.params⟩) := by
  cases h : buildSignedParams acc.client.secret_key ps w now with
  | error e => simp [signedOp, h]
  | ok sp =>
    cases hh₁ : http ⟨verb, p₁, sp⟩ <;> cases hh₂ : http ⟨verb, p₂, sp⟩ <;>
      simp [signedOp, h, hh₁, hh₂]

theorem signedOp_local_failure {α β : Type} (acc : Account) (v₁ v₂ : Verb) (p₁ p₂ : String)
    (ps : Params) (w now : Nat) (http : Collaborator)
    (dec₁ : RespData → Except Error α) (dec₂ : RespData → Except Error β) (e : Error) :
    signedOp acc v₂ p₂ ps w now http dec₂ = ([], .error e) ↔
      signedOp acc v₁ p₁ ps w now http dec₁ = ([], .error e) := by
  cases h : buildSignedParams acc.client.secret_key ps w now with
  | error e' => simp [signedOp, h]
  | ok sp =>
    cases hh₁ : http ⟨v₁, p₁, sp⟩ <;> cases hh₂ : http ⟨v₂, p₂, sp⟩ <;>
      simp [signedOp, h, hh₁, hh₂]

/-- C2: each test-prefixed operation performs the same validation and
builds the same signed request parameters as its live counterpart: its call
trace is the live trace retargeted to `/api/v3/order/test` (same verb, same
signed parameters), and it fails locally — before any dispatch, with an
empty trace — exactly when and how the live operation does. -/
theorem C2_test_live_symmetry :
    ∀ (acc : Account) (http : Collaborator) (now : Nat),
      (∀ o : OrderRequest,
        ((Account.place_test_order acc http now o).1 =
          (Account.place_order acc http now o).1.map
            (fun c => ⟨c.verb, API_V3_ORDER_TEST, c.params⟩)) ∧
        (∀ e : Error, Account.place_test_order acc http now o = ([], .error e) ↔
          Account.place_order acc http now o = ([], .error e))) ∧
      (∀ osr : OrderStatusRequest,
        ((Account.test_order_status acc http now osr).1 =
          (Account.order_status acc http now osr).1.map
            (fun c => ⟨c.verb, API_V3_ORDER_TEST, c.params⟩)) ∧
        (∀ e : Error, Account.test_order_status acc http now osr = ([], .error e) ↔
          Account.order_status acc http now osr = ([], .error e))) ∧
      (∀ oc : OrderCancellation,
        ((Account.test_cancel_order acc http now oc).1 =
          (Account.cancel_order acc http now oc).1.map
            (fun c => ⟨c.verb, API_V3_ORDER_TEST, c.params⟩)) ∧
        (∀ e : Error, Account.test_cancel_order acc http now oc = ([], .error e) ↔
          Account.cancel_order acc http now oc = ([], .error e))) := by
  intro acc http now
  refine ⟨?_, ?_, ?_⟩
  · intro o
    constructor
    · cases hv : o.valid with
      | error e =>
        simp [Account.place_order, Account.place_test_order, hv]
      | ok u =>
        simp only [Account.place_order, Account.place_test_order, hv]
        exact signedOp_retarget acc .post API_V3_ORDER API_V3_ORDER_TEST o.encode
          (o.recv_window.getD acc.recv_window) now http decodeTransaction decodeTestResponse
    · intro e
      cases hv : o.valid with
      | error e' =>
        simp [Account.place_order, Account.place_test_order, hv]
      | ok u =>
        simp only [Account.place_order, Account.place_test_order, hv]
        exact signedOp_local_failure acc .post .post API_V3_ORDER API_V3_ORDER_TEST o.encode
          (o.recv_window.getD acc.recv_window) now http decodeTransaction decodeTestResponse e
  · intro osr
    refine ⟨?_, fun e => ?_⟩
    · exact signedOp_retarget acc .get API_V3_ORDER API_V3_ORDER_TEST osr.encode
        (osr.recv_window.getD acc.recv_window) now http decodeOrder decodeTestResponse
    · exact signedOp_local_failure acc .get .get API_V3_ORDER API_V3_ORDER_TEST osr.encode
        (osr.recv_window.getD acc.recv_window) now http decodeOrder decodeTestResponse e
  · intro oc
    refine ⟨?_, fun e => ?_⟩
    · exact signedOp_retarget acc .delete API_V3_ORDER API_V3_ORDER_TEST oc.encode
        (oc.recv_window.getD acc.recv_window) now http decodeOrderCanceled decodeTestResponse
    · exact signedOp_local_failure acc .delete .delete API_V3_ORDER API_V3_ORDER_TEST oc.encode
        (oc.recv_window.getD acc.recv_window) now http decodeOrderCanceled decodeTestResponse e

/-! ## Claim C7: get_balance is a local post-filter over one account fetch -/

theorem findBalance_eq_find? (asset : String) :
    ∀ l : List Balance, findBalance asset l =
      match l.find? (fun b => b.asset == asset) with
      | some b => .ok b
      | none => .error (.Msg "Asset not found") := by
  intro l
  induction l with
  | nil => rfl
  | cons b rest ih =>
    by_cases h : b.asset = asset
    · simp [findBalance, List.find?, h]
    · have hb : (b.asset == asset) = false := by simp [h]
      simp [findBalance, List.find?, h, hb, ih]

/-- C7: `get_balance` performs exactly the network calls of one account
fetch (at most one call — never a second); on a successful fetch it returns
the first balance whose `asset` equals the requested one, or the local
lookup error `Msg "Asset not found"` when none matches; a failed fetch is
returned unchanged. -/
theorem C7_get_balance_contract :
    ∀ (acc : Account) (http : Collaborator) (now : Nat) (asset : String),
      Account.get_balance acc http now asset =
        ((Account.get_account acc http now).1,
          match (Account.get_account acc http now).2 with
          | .ok account =>
              match account.balances.find? (fun b => b.asset == asset) with
              | some b => .ok b
              | none => .error (.Msg "Asset not found")
          | .error e => .error e) ∧
      (Account.get_balance acc http now asset).1.length ≤ 1 := by
  intro acc http now asset
  constructor
  · show (match Account.get_account acc http now with
      | (tr, .ok account) => (tr, findBalance asset account.balances)
      | (tr, .error e) => ((tr : List HttpCall), (.error e : Except Error Balance))) = _
    rcases hga : Account.get_account acc http now with ⟨tr, res⟩
    cases res with
    | ok account => simp [findBalance_eq_find?]
    | error e => rfl
  · rw [get_balance_trace]
    exact signedOp_trace_len acc .get API_V3_ACCOUNT (toParams []) acc.recv_window now http
      decodeAccountInformation

/-! ## Claim C10: exact, case-sensitive, first-match balance lookup -/

/-- A collaborator answering every call with an account holding one BTC
balance entry. -/
def httpAccountBTC : Collaborator := fun _ => .ok (.accountInfo ⟨[⟨"BTC", "1", "0"⟩]⟩)

/-- A collaborator answering every call with an account holding two balance
entries with the same asset name. -/
def httpAccountDup : Collaborator :=
  fun _ => .ok (.accountInfo ⟨[⟨"BTC", "1", "0"⟩, ⟨"BTC", "2", "0"⟩]⟩)

/-- C10: `get_balance` compares asset names by exact case-sensitive string
equality — `get_balance "btc"` fails with the local lookup error although a
"BTC" balance exists — and with duplicate asset names it returns the first
matching entry in response order. -/
theorem C10_case_sensitive_first_match :
    (Account.get_balance acc0 httpAccountBTC 1700000000000 "btc").2 =
      .error (.Msg "Asset not found") ∧
    (Account.get_balance acc0 httpAccountDup 1700000000000 "BTC").2 =
      .ok ⟨"BTC", "1", "0"⟩ := by
  exact ⟨rfl, rfl⟩

/-! ## Claim C9: no local upper bound on the receive-window -/

/-- An order whose receive-window exceeds 60000 but which passes the only
local validation rule. -/
def bigWindowOrder : OrderRequest :=
  ⟨"BTCUSDT", .Buy, .Limit, some .GTC, some "10", none, some "0.014", none, none, none, none,
    some 60001⟩

/-- C9 counterexample: an order with `recv_window = 60001 > 60000` is still
submitted to the HTTP collaborator by `place_order` (one call, carrying
`recvWindow=60001`), refuting the claimed ≤ 60000 invariant. -/
theorem C9_counterexample :
    bigWindowOrder.recv_window = some 60001 ∧
    ¬(60001 ≤ 60000) ∧
    (Account.place_order acc0 httpOffline 1700000000000 bigWindowOrder).1.length = 1 ∧
    ((Account.place_order acc0 httpOffline 1700000000000 bigWindowOrder).1.all
      (fun c => List.lookup "recvWindow" c.params == some "60001")) = true := by
  exact ⟨rfl, by decide, rfl, by rfl⟩

/-- C9 (amended): the validator never inspects `recv_window`; every order
passing the iceberg rule is submitted (exactly one HTTP call) with
`recvWindow` equal to its own receive-window when present (the default
otherwise), even when that value exceeds 60000 — the documented ≤ 60000
bound is not locally enforced. -/
theorem C9_no_recv_window_bound :
    ∀ (acc : Account) (http : Collaborator) (now : Nat) (o : OrderRequest),
      acc.client.secret_key ≠ "" →
      ¬(o.iceberg_qty.isSome ∧ o.time_in_force ≠ some TimeInForce.GTC) →
      (Account.place_order acc http now o).1.length = 1 ∧
      (Account.place_test_order acc http now o).1.length = 1 ∧
      ((Account.place_order acc http now o).1.all
        (fun c => List.lookup "recvWindow" c.params ==
          some (toString (o.recv_window.getD acc.recv_window)))) = true := by
  intro acc http now o hsecret hcond
  have hv : o.valid = .ok () := by
    rw [OrderRequest.valid, if_neg hcond]
  have hlen : ∀ {α : Type} (verb : Verb) (path : String) (dec : RespData → Except Error α),
      (signedOp acc verb path o.encode (o.recv_window.getD acc.recv_window) now http dec).1.length
        = 1 := by
    intro α verb path dec
    rw [signedOp_trace]
    cases h : buildSignedParams acc.client.secret_key o.encode
        (o.recv_window.getD acc.recv_window) now with
    | error e =>
      exfalso
      unfold buildSignedParams at h
      rw [if_neg hsecret] at h
      exact absurd h (by simp)
    | ok sp => rfl
  refine ⟨?_, ?_, ?_⟩
  · simp only [Account.place_order, hv]
    exact hlen .post API_V3_ORDER decodeTransaction
  · simp only [Account.place_test_order, hv]
    exact hlen .post API_V3_ORDER_TEST decodeTestResponse
  · simp only [Account.place_order, hv]
    exact signedOp_trace_all acc .post API_V3_ORDER o.encode
      (o.recv_window.getD acc.recv_window) now http decodeTransaction _
      (fun sp h => by simp [lookup_signed_recvWindow h])

/-- C9 witness for the amended claim, at the concrete over-window order. -/
theorem C9_witness :
    (Account.place_order acc0 httpOffline 1700000000000 bigWindowOrder).1.length = 1 ∧
    (Account.place_test_order acc0 httpOffline 1700000000000 bigWindowOrder).1.length = 1 ∧
    ((Account.place_order acc0 httpOffline 1700000000000 bigWindowOrder).1.all
      (fun c => List.lookup "recvWindow" c.params ==
        some (toString (bigWindowOrder.recv_window.getD acc0.recv_window)))) = true :=
  C9_no_recv_window_bound acc0 httpOffline 1700000000000 bigWindowOrder
    (by decide) (by decide)
